import Mathlib

/-!
# Verification of the geesefs inode / xattr / remote-reconciliation layer

Shallow embedding of `internal/handles.go` (inode attribute handling,
reference counting, xattr surface, metadata escape codec, and
`SetFromBlobItem` remote reconciliation), with theorems checking the
natural-language specification against the code.

Go strings and byte slices are modelled as lists of byte values
(`List Nat`, each element `< 256`); Go maps are modelled as association
lists with distinct keys; Go `time.Time` is modelled as an integer
timestamp whose zero value corresponds to Go's zero time.
-/

namespace GeeseFS

/-- A Go string / `[]byte` value: a list of byte values. -/
abbrev Bytes := List Nat

/-- Byte list of an ASCII Lean string literal (used to write the string
constants appearing in the source). -/
def str2b (s : String) : Bytes := s.data.map Char.toNat

/-- ASCII lowercasing of one byte, as done by `strings.ToLower` on ASCII
input (all strings reaching `ToLower` in the modelled code are ASCII). -/
def lowerByte (c : Nat) : Nat := if 65 ≤ c ∧ c ≤ 90 then c + 32 else c

/-- `strings.ToLower` on an ASCII byte string. -/
def lowerBytes (s : Bytes) : Bytes := s.map lowerByte

/-- Uppercase hexadecimal digit for a value `< 16` (as `fmt.Sprintf "%02X"`). -/
def hexDigitU (n : Nat) : Nat := if n < 10 then 48 + n else 55 + n

/-- Value of one hexadecimal digit byte (either case), `none` if not hex. -/
def hexVal (c : Nat) : Option Nat :=
  if 48 ≤ c ∧ c ≤ 57 then some (c - 48)
  else if 97 ≤ c ∧ c ≤ 102 then some (c - 87)
  else if 65 ≤ c ∧ c ≤ 70 then some (c - 55)
  else none

/-- A byte that is kept verbatim by the xattr escape codec: printable
ASCII other than the percent sign. -/
def plainByte (c : Nat) : Bool := decide (32 ≤ c ∧ c < 127 ∧ c ≠ 37)

/-- Modelled from the spec: `xattrEscape` (repository code outside the
captured file). Metadata keys and values are "URL-escaped bytes": every
non-printable byte and the percent sign are written as `%XX` with
uppercase hexadecimal, printable bytes are kept verbatim. -/
def xattrEscape : Bytes → Bytes
  | [] => []
  | c :: rest =>
    (if plainByte c then [c] else [37, hexDigitU (c / 16 % 16), hexDigitU (c % 16)])
      ++ xattrEscape rest

/-- Modelled from the spec: Go's `url.PathUnescape` (standard library).
Decodes `%XX` with hexadecimal digits of either case; a `%` not followed
by two hexadecimal digits is an error (`none`). -/
def pathUnescape : Bytes → Option Bytes
  | [] => some []
  | c :: rest =>
    if c = 37 then
      match rest with
      | a :: b :: rest2 =>
        match hexVal a, hexVal b with
        | some ha, some hb => (pathUnescape rest2).map (fun r => (16 * ha + hb) :: r)
        | _, _ => none
      | _ => none
    else (pathUnescape rest).map (fun r => c :: r)

/-- A Go `map[string]string` / `map[string][]byte`, modelled as an
association list whose keys are distinct. -/
abbrev MetaMap := List (Bytes × Bytes)

/-- Map lookup (`m[k]`, with presence). -/
def mapLookup (m : MetaMap) (k : Bytes) : Option Bytes :=
  match m with
  | [] => none
  | kv :: rest => if kv.1 = k then some kv.2 else mapLookup rest k

/-- Map store (`m[k] = v`): replaces an existing binding, else appends. -/
def mapStore (m : MetaMap) (k v : Bytes) : MetaMap :=
  match m with
  | [] => [(k, v)]
  | kv :: rest => if kv.1 = k then (k, v) :: rest else kv :: mapStore rest k v

/-- Map deletion (`delete(m, k)`). -/
def mapDrop (m : MetaMap) (k : Bytes) : MetaMap :=
  m.filter (fun kv => kv.1 ≠ k)

/-- `escapeMetadata` from the source: each key is escaped and lowercased,
each value is escaped. -/
def escapeMetadata (meta : MetaMap) : MetaMap :=
  meta.map (fun kv => (lowerBytes (xattrEscape kv.1), xattrEscape kv.2))

/-- `unescapeMetadata` from the source: each key is lowercased and
URL-unescaped, each value URL-unescaped; entries failing either
unescape are dropped. -/
def unescapeMetadata (meta : MetaMap) : MetaMap :=
  meta.filterMap (fun kv =>
    match pathUnescape (lowerBytes kv.1), pathUnescape kv.2 with
    | some uk, some uv => some (uk, uv)
    | _, _ => none)

/-- The byte-level normal form produced by unescaping a lowercased escaped
key: plain bytes are lowercased, escaped bytes come back unchanged. -/
def keyNorm (k : Bytes) : Bytes :=
  k.map (fun c => if plainByte c then lowerByte c else c)

/-! ## Constants of the source (cache states, buffer states, mode bits) -/

def ST_CACHED : Nat := 0

def ST_CREATED : Nat := 1

def ST_MODIFIED : Nat := 2

def ST_DELETED : Nat := 3

def BUF_CLEAN : Nat := 1

def BUF_DIRTY : Nat := 2

/-- Go `os.ModeDir` (bit 31 of `os.FileMode`). -/
def ModeDir : Nat := 2 ^ 31

def ModeSymlink : Nat := 2 ^ 27

def ModeDevice : Nat := 2 ^ 26

def ModeNamedPipe : Nat := 2 ^ 25

def ModeSocket : Nat := 2 ^ 24

def ModeSetuid : Nat := 2 ^ 23

def ModeSetgid : Nat := 2 ^ 22

def ModeCharDevice : Nat := 2 ^ 21

def ModeSticky : Nat := 2 ^ 20

def ModeIrregular : Nat := 2 ^ 19

/-- Go `os.ModePerm` = 0777. -/
def ModePerm : Nat := 511

/-- Go `os.ModeType`: the union of all type bits. -/
def ModeType : Nat :=
  ModeDir ||| ModeSymlink ||| ModeNamedPipe ||| ModeSocket ||| ModeDevice |||
    ModeCharDevice ||| ModeIrregular

def S_IFMT : Nat := 61440

def S_IFREG : Nat := 32768

def S_IFDIR : Nat := 16384

def S_IFCHR : Nat := 8192

def S_IFBLK : Nat := 24576

def S_IFIFO : Nat := 4096

def S_IFLNK : Nat := 40960

def S_IFSOCK : Nat := 49152

def S_ISUID : Nat := 2048

def S_ISGID : Nat := 1024

def S_ISVTX : Nat := 512

/-- `unix.XATTR_CREATE`. -/
def XATTR_CREATE : Nat := 1

/-- `unix.XATTR_REPLACE`. -/
def XATTR_REPLACE : Nat := 2

/-- The error codes returned to the kernel by the modelled operations. -/
inductive Errno
  | ENOENT
  | ENODATA
  | EEXIST
  | EPERM
  | ENOSYS
  | ENOTDIR
  | EISDIR
  | EIO
deriving DecidableEq, Repr

/-- Observable side effects of `SetFromBlobItem`, in emission order: the
conflict warning, the `resetCache` call, and the `ResizeUnlocked` call with
its target size. -/
inductive Event
  | warn
  | reset
  | resize (n : Nat)
deriving DecidableEq, Repr

/-- Which of the two metadata maps a resolved xattr name addresses. -/
inductive MetaTarget
  | s3
  | user
deriving DecidableEq, Repr

/-! ## Data model -/

/-- `InodeAttributes` from the source. Times are integer timestamps whose
zero value is Go's zero `time.Time`. -/
structure InodeAttributes where
  size : Nat
  mtime : Int
  ctime : Int
  uid : Nat
  gid : Nat
  rdev : Nat
  mode : Nat
deriving DecidableEq, Repr

/-- `FileBuffer` from the source (the `data`/`ptr` byte storage is not
modelled; no claim depends on buffer contents). -/
structure FileBuffer where
  offset : Nat
  length : Nat
  state : Nat
  loading : Bool
  onDisk : Bool
  zero : Bool
  recency : Nat
  dirtyID : Nat
deriving DecidableEq, Repr

/-- The configuration flags of `Goofys` consulted by the modelled code. -/
structure FlagStorage where
  Uid : Nat
  Gid : Nat
  FileMode : Nat
  DirMode : Nat
  EnableMtime : Bool
  EnablePerms : Bool
  EnableSpecials : Bool
  MtimeAttr : Bytes
  UidAttr : Bytes
  GidAttr : Bytes
  RdevAttr : Bytes
  FileModeAttr : Bytes
  SymlinkAttr : Bytes
deriving DecidableEq, Repr

/-- The filesystem state consulted and mutated by the modelled inode
operations: flags, the root attribute record, the inode ID table, the
forget counter, the LFRU tracker (as the set of tracked inode IDs), and
the `Capabilities().Name` of the storage backend that `cloud()` resolves
for the inode (used to namespace xattrs). -/
structure Goofys where
  flags : FlagStorage
  rootAttrs : InodeAttributes
  inodes : List Nat
  forgotCnt : Nat
  lfru : List Nat
  backendName : Bytes
deriving DecidableEq, Repr

/-- `Inode` from the source, restricted to the fields the modelled
operations read or write. `dir` models `dir != nil` (directory-ness),
`mpu` models `mpu != nil`. -/
structure Inode where
  Id : Nat
  Name : Bytes
  Attributes : InodeAttributes
  AttrTime : Int
  dir : Bool
  ImplicitDir : Bool
  CacheState : Nat
  buffers : List FileBuffer
  mpu : Bool
  userMetadataDirty : Nat
  userMetadata : Option MetaMap
  s3Metadata : MetaMap
  knownSize : Nat
  knownETag : Bytes
  refcnt : Int
deriving DecidableEq, Repr

/-- `BlobItemOutput`: one observed blob listing entry. -/
structure BlobItemOutput where
  key : Bytes
  eTag : Option Bytes
  lastModified : Option Int
  size : Nat
  storageClass : Option Bytes
  metadata : Option MetaMap
deriving DecidableEq, Repr

/-- `HeadBlobOutput`, restricted to the fields `fillXattrFromHead` reads
(a nil metadata map is modelled as the empty map). -/
structure HeadBlobOutput where
  eTag : Option Bytes
  storageClass : Option Bytes
  metadata : MetaMap
deriving DecidableEq, Repr

/-- The FUSE attribute record produced by `InflateAttributes`. -/
structure FuseInodeAttributes where
  Size : Nat
  Nlink : Nat
  Atime : Int
  Mtime : Int
  Ctime : Int
  Crtime : Int
  Uid : Nat
  Gid : Nat
  Mode : Nat
  Rdev : Nat
deriving DecidableEq, Repr

/-! ## Go standard-library helpers used by the source -/

/-- Outcome of Go `strconv.ParseUint`: a value, a syntax error, or a range
error (which reports the max value together with the error). -/
inductive PURes
  | ok (n : Nat)
  | synErr
  | rangeErr
deriving DecidableEq, Repr

/-- Modelled from the spec: digit loop of Go `strconv.ParseUint` (standard
library). The modelled code always calls `ParseUint` with base argument 0,
so underscores are collected here and validated afterwards. Returns the
outcome and whether underscores were seen. -/
def puLoop (base maxVal : Nat) : Bytes → Nat → Bool → PURes × Bool
  | [], n, u => (PURes.ok n, u)
  | c :: rest, n, u =>
    if c = 95 then puLoop base maxVal rest n true
    else
      let d :=
        if 48 ≤ c ∧ c ≤ 57 then some (c - 48)
        else if 97 ≤ lowerByte c ∧ lowerByte c ≤ 122 then some (lowerByte c - 87)
        else none
      match d with
      | none => (PURes.synErr, u)
      | some d =>
        if base ≤ d then (PURes.synErr, u)
        else
          let n1 := n * base + d
          if maxVal < n1 then (PURes.rangeErr, u) else puLoop base maxVal rest n1 u

/-- Modelled from the spec: scanning loop of Go `strconv.underscoreOK`.
`saw` classes: 0 = start, 1 = digit or base marker, 2 = underscore,
3 = other. -/
def uokLoop (hx : Bool) : Nat → Bytes → Bool
  | saw, [] => saw ≠ 2
  | saw, c :: rest =>
    if (48 ≤ c ∧ c ≤ 57) ∨ (hx ∧ 97 ≤ lowerByte c ∧ lowerByte c ≤ 102) then
      uokLoop hx 1 rest
    else if c = 95 then (if saw ≠ 1 then false else uokLoop hx 2 rest)
    else if saw = 2 then false
    else uokLoop hx 3 rest

/-- Modelled from the spec: Go `strconv.underscoreOK` — underscores may
appear only between digits or right after a base marker. -/
def underscoreOK (s : Bytes) : Bool :=
  let s1 :=
    match s with
    | c :: rest => if c = 45 ∨ c = 43 then rest else c :: rest
    | [] => []
  match s1 with
  | 48 :: c2 :: rest =>
    if lowerByte c2 = 98 ∨ lowerByte c2 = 111 ∨ lowerByte c2 = 120 then
      uokLoop (lowerByte c2 = 120) 1 rest
    else uokLoop false 0 (48 :: c2 :: rest)
  | _ => uokLoop false 0 s1

/-- Modelled from the spec: Go `strconv.ParseUint(s, 0, bitSize)` (standard
library). The base is read from the string (`0b`/`0o`/`0x`, leading zero =
octal, else decimal). Returns the parsed value and whether parsing
succeeded; on a range error the value is the bit-size maximum, matching
Go's `(maxVal, err)` return. -/
def goParseUintRes (s : Bytes) (bitSize : Nat) : Nat × Bool :=
  if s = [] then (0, false)
  else
    let bd :=
      match s with
      | 48 :: c2 :: rest2 =>
        if rest2 ≠ [] ∧ lowerByte c2 = 98 then (2, rest2)
        else if rest2 ≠ [] ∧ lowerByte c2 = 111 then (8, rest2)
        else if rest2 ≠ [] ∧ lowerByte c2 = 120 then (16, rest2)
        else (8, c2 :: rest2)
      | 48 :: [] => (8, ([] : Bytes))
      | _ => (10, s)
    let maxVal := 2 ^ bitSize - 1
    match puLoop bd.1 maxVal bd.2 0 false with
    | (PURes.ok n, u) => if u ∧ ¬underscoreOK s then (0, false) else (n, true)
    | (PURes.synErr, _) => (0, false)
    | (PURes.rangeErr, _) => (maxVal, false)

/-- `strconv.ParseUint` where the caller checks `err == nil`. -/
def goParseUint (s : Bytes) (bitSize : Nat) : Option Nat :=
  match goParseUintRes s bitSize with
  | (n, true) => some n
  | (_, false) => none

/-- Go's `int64(u)` cast of a `uint64` value. -/
def goInt64 (n : Nat) : Int :=
  if n < 2 ^ 63 then (n : Int) else (n : Int) - 2 ^ 64

/-- Decimal representation of a number (`fmt.Sprintf "%d"`), as bytes. -/
def natDecimal (n : Nat) : Bytes := (Nat.toDigits 10 n).map Char.toNat

/-- `Dup` copies a byte slice; in the value model it is the identity. -/
def Dup (v : Bytes) : Bytes := v

/-- Modelled from the spec: `fuse.ConvertFileMode` (external FUSE library
used by `setMetadata`): converts a numeric mode in the backend's (unix)
convention into Go's `os.FileMode` bit layout. -/
def ConvertFileMode (unixMode : Nat) : Nat :=
  let mode := unixMode &&& 511
  let mode := mode |||
    (if unixMode &&& S_IFMT = S_IFREG then 0
     else if unixMode &&& S_IFMT = S_IFDIR then ModeDir
     else if unixMode &&& S_IFMT = S_IFCHR then ModeCharDevice ||| ModeDevice
     else if unixMode &&& S_IFMT = S_IFBLK then ModeDevice
     else if unixMode &&& S_IFMT = S_IFIFO then ModeNamedPipe
     else if unixMode &&& S_IFMT = S_IFLNK then ModeSymlink
     else if unixMode &&& S_IFMT = S_IFSOCK then ModeSocket
     else ModeIrregular)
  let mode := if unixMode &&& S_ISUID ≠ 0 then mode ||| ModeSetuid else mode
  let mode := if unixMode &&& S_ISGID ≠ 0 then mode ||| ModeSetgid else mode
  if unixMode &&& S_ISVTX ≠ 0 then mode ||| ModeSticky else mode

/-- Modelled from the spec: `fuse.ConvertGolangMode` (external FUSE
library used by `setFileMode`): converts a Go `os.FileMode` into the
backend's numeric (unix) mode convention. -/
def ConvertGolangMode (inMode : Nat) : Nat :=
  let outMode := inMode &&& 511
  let outMode := outMode |||
    (if inMode &&& ModeDir ≠ 0 then S_IFDIR
     else if inMode &&& ModeDevice ≠ 0 then
       (if inMode &&& ModeCharDevice ≠ 0 then S_IFCHR else S_IFBLK)
     else if inMode &&& ModeNamedPipe ≠ 0 then S_IFIFO
     else if inMode &&& ModeSymlink ≠ 0 then S_IFLNK
     else if inMode &&& ModeSocket ≠ 0 then S_IFSOCK
     else S_IFREG)
  let outMode := if inMode &&& ModeSetuid ≠ 0 then outMode ||| S_ISUID else outMode
  let outMode := if inMode &&& ModeSetgid ≠ 0 then outMode ||| S_ISGID else outMode
  if inMode &&& ModeSticky ≠ 0 then outMode ||| S_ISVTX else outMode

/-! ## Inode operations -/

/-- Modelled from the spec: `resetCache` (repository code outside the
captured file): releases all buffers, truncates the disk cache, clears
multipart state, and transitions the cache state to CACHED. -/
def Inode.resetCache (inode : Inode) : Inode :=
  { inode with buffers := [], mpu := false, CacheState := ST_CACHED }

/-- Modelled from the spec: `ResizeUnlocked(newSize, zeroFill, reset)`
(repository code outside the captured file): extends or truncates the
buffer list to cover `[0, newSize)` — on extend a single `zero = true`
chunk is added, on shrink trailing chunks are dropped or truncated — and
stores the new size. If `reset`, existing buffers are released first. -/
def Inode.ResizeUnlocked (inode : Inode) (newSize : Nat) (zeroFill reset : Bool) : Inode :=
  let bufs := if reset then [] else inode.buffers
  let covered := bufs.foldl (fun acc b => max acc (b.offset + b.length)) 0
  let bufs :=
    if covered < newSize then
      bufs ++ [{ offset := covered
                 length := newSize - covered
                 state := BUF_CLEAN
                 loading := false
                 onDisk := false
                 zero := true
                 recency := 0
                 dirtyID := 0 }]
    else
      bufs.filterMap (fun b =>
        if newSize ≤ b.offset then none
        else some { b with length := min b.length (newSize - b.offset) })
  { inode with
      buffers := bufs
      Attributes := { inode.Attributes with size := newSize } }

/-- `setUserMeta` from the source: a `none` value deletes the key; always
marks `userMetadataDirty = 2`; creates the user map when nil. -/
def Inode.setUserMeta (inode : Inode) (key : Bytes) (value : Option Bytes) : Inode :=
  let um := inode.userMetadata.getD []
  let um :=
    match value with
    | none => mapDrop um key
    | some v => mapStore um key v
  { inode with userMetadata := some um, userMetadataDirty := 2 }

/-- The attribute mutations of `setMetadata` from the source: decode the
recognized attribute keys (mtime, uid, gid, file mode, rdev) out of the
unescaped user metadata `um`, guarded by the corresponding flags, in the
source's assignment order. -/
def setMetadataAttrs (fs : Goofys) (um : MetaMap) (a0 : InodeAttributes) :
    InodeAttributes :=
  let a :=
    if fs.flags.EnableMtime then
      match mapLookup um fs.flags.MtimeAttr with
      | some mtimeStr =>
        match goParseUint mtimeStr 64 with
        | some i => { a0 with mtime := goInt64 i }
        | none => a0
      | none => a0
    else a0
  let a :=
    if fs.flags.EnablePerms then
      let a :=
        match mapLookup um fs.flags.UidAttr with
        | some uidStr =>
          match goParseUint uidStr 32 with
          | some i => { a with uid := i }
          | none => a
        | none => a
      match mapLookup um fs.flags.GidAttr with
      | some gidStr =>
        match goParseUint gidStr 32 with
        | some i => { a with gid := i }
        | none => a
      | none => a
    else a
  if fs.flags.EnablePerms ∨ fs.flags.EnableSpecials then
    match mapLookup um fs.flags.FileModeAttr with
    | some modeStr =>
      match goParseUint modeStr 32 with
      | some i =>
        let fm := ConvertFileMode i
        let mask := if fs.flags.EnablePerms then ModePerm else 0
        let mask :=
          if fs.flags.EnableSpecials ∧ a.mode &&& ModeType = 0 then mask ||| ModeType
          else mask
        let rmMask := (ModePerm ||| ModeType) ^^^ mask
        let a := { a with mode := a.mode &&& rmMask ||| (fm &&& mask) }
        if a.mode &&& ModeDevice ≠ 0 then
          let rdev :=
            (goParseUintRes
              (match mapLookup um fs.flags.RdevAttr with
               | some r => r
               | none => []) 32).1
          { a with rdev := rdev }
        else a
      | none => a
    | none => a
  else a

/-- `setMetadata` from the source: unescape the remote metadata map into
`userMetadata` (never nil, so the `userMetadata != nil` body always runs),
then apply the attribute decoding of `setMetadataAttrs`. -/
def Inode.setMetadata (fs : Goofys) (inode : Inode) (metadata : MetaMap) : Inode :=
  let um := unescapeMetadata metadata
  { inode with
      userMetadata := some um
      Attributes := setMetadataAttrs fs um inode.Attributes }

/-- `SetFromBlobItem` from the source: apply an observed remote blob entry
to the inode; `now` is the `time.Now()` observed during the call. Returns
the updated inode and the emitted events (warning, cache reset, resize)
in order. -/
def Inode.SetFromBlobItem (fs : Goofys) (inode : Inode) (item : BlobItemOutput)
    (now : Int) : Inode × List Event :=
  -- Go operator precedence: `a && b || c` parses as `(a && b) || c`
  let conflict : Bool :=
    (match item.eTag with
     | some e => decide (inode.knownETag ≠ e)
     | none => false) || decide (item.size ≠ inode.knownSize)
  let st :=
    if conflict then
      let events :=
        if inode.CacheState ≠ ST_CACHED ∧ (inode.knownETag ≠ [] ∨ 0 < inode.knownSize)
        then [Event.warn] else []
      let inode := inode.resetCache
      let inode := inode.ResizeUnlocked item.size false false
      let inode := { inode with knownSize := item.size }
      let inode :=
        match item.lastModified with
        | some t =>
          { inode with Attributes := { inode.Attributes with mtime := t, ctime := t } }
        | none =>
          { inode with
              Attributes := { inode.Attributes with mtime := fs.rootAttrs.ctime, ctime := fs.rootAttrs.ctime } }
      let inode :=
        match item.metadata with
        | some md => { Inode.setMetadata fs inode md with userMetadataDirty := 0 }
        | none => inode
      (inode, events ++ [Event.reset, Event.resize item.size])
    else (inode, [])
  let inode := st.1
  let inode :=
    match item.eTag with
    | some e =>
      { inode with
          s3Metadata := mapStore inode.s3Metadata (str2b "etag") e
          knownETag := e }
    | none => { inode with s3Metadata := mapDrop inode.s3Metadata (str2b "etag") }
  let inode :=
    match item.storageClass with
    | some sc =>
      { inode with s3Metadata := mapStore inode.s3Metadata (str2b "storage-class") sc }
    | none =>
      { inode with s3Metadata := mapDrop inode.s3Metadata (str2b "storage-class") }
  let inode := if inode.AttrTime < now then { inode with AttrTime := now } else inode
  (inode, st.2)

/-- `InflateAttributes` from the source. -/
def Inode.InflateAttributes (fs : Goofys) (inode : Inode) : FuseInodeAttributes :=
  let mtime :=
    if inode.Attributes.mtime = 0 then fs.rootAttrs.mtime else inode.Attributes.mtime
  let attr : FuseInodeAttributes :=
    { Size := inode.Attributes.size
      Nlink := 0
      Atime := inode.Attributes.ctime
      Mtime := mtime
      Ctime := inode.Attributes.ctime
      Crtime := mtime
      Uid := inode.Attributes.uid
      Gid := inode.Attributes.gid
      Mode := inode.Attributes.mode
      Rdev := inode.Attributes.rdev }
  if inode.dir then
    { attr with Nlink := 2, Mode := attr.Mode &&& ModePerm ||| ModeDir }
  else if inode.userMetadata.isSome &&
      (mapLookup (inode.userMetadata.getD []) fs.flags.SymlinkAttr).isSome then
    { attr with Nlink := 1, Mode := attr.Mode &&& ModePerm ||| ModeSymlink }
  else
    { attr with Nlink := 1 }

/-- `DeRef` from the source. `none` models the `panic` on a negative
refcount. On reaching zero with state CACHED: reset the cache, remove the
inode from the fs table, bump the forget counter, and forget the inode in
the LFRU tracker. Returns the updated fs and inode and the `stale`
result. -/
def Inode.DeRef (fs : Goofys) (inode : Inode) (n : Int) :
    Option (Goofys × Inode × Bool) :=
  let res := inode.refcnt - n
  if res < 0 then none
  else
    let inode := { inode with refcnt := res }
    if res = 0 ∧ inode.CacheState = ST_CACHED then
      let inode := inode.resetCache
      some ({ fs with
                inodes := fs.inodes.filter (fun i => i ≠ inode.Id)
                forgotCnt := fs.forgotCnt + 1
                lfru := fs.lfru.filter (fun i => i ≠ inode.Id) },
            inode, true)
    else some (fs, inode, decide (res = 0))

/-- `fillXattrFromHead` from the source. -/
def Inode.fillXattrFromHead (fs : Goofys) (inode : Inode) (resp : HeadBlobOutput) :
    Inode :=
  let inode :=
    match resp.eTag with
    | some e => { inode with s3Metadata := mapStore inode.s3Metadata (str2b "etag") e }
    | none => inode
  let inode :=
    match resp.storageClass with
    | some sc =>
      { inode with s3Metadata := mapStore inode.s3Metadata (str2b "storage-class") sc }
    | none =>
      { inode with
          s3Metadata := mapStore inode.s3Metadata (str2b "storage-class") (str2b "STANDARD") }
  Inode.setMetadata fs inode resp.metadata

/-- `fillXattr` from the source. The blob HEAD performed when the user
metadata is unknown is taken as the oracle argument `head`, already mapped
through `mapAwsError`. A remote ENOENT is swallowed and promotes a
directory to implicit. -/
def Inode.fillXattr (fs : Goofys) (inode : Inode)
    (head : Except Errno HeadBlobOutput) : Inode × Option Errno :=
  if ¬inode.ImplicitDir ∧ inode.userMetadata = none then
    match head with
    | Except.error e =>
      if e = Errno.ENOENT then
        (if inode.dir then { inode with ImplicitDir := true } else inode, none)
      else (inode, some e)
    | Except.ok resp =>
      if inode.userMetadata = none then (Inode.fillXattrFromHead fs inode resp, none)
      else (inode, none)
  else (inode, none)

/-- `getXattrMap` from the source: routes an xattr name to one of the two
metadata maps. The backend xattr namespace is `fs.backendName ++ "."`
(the `Capabilities().Name` of the backend resolved by `cloud()`). -/
def Inode.getXattrMap (fs : Goofys) (inode : Inode) (name : Bytes) (userOnly : Bool)
    (head : Except Errno HeadBlobOutput) : Inode × Except Errno (MetaTarget × Bytes) :=
  let xattrNS := fs.backendName ++ [46]
  if xattrNS.isPrefixOf name then
    if userOnly then (inode, Except.error Errno.EPERM)
    else
      -- s3Metadata is initialized at inode creation and is never nil
      (inode, Except.ok (MetaTarget.s3, name.drop xattrNS.length))
  else if (str2b "user.").isPrefixOf name ∧ name ≠ str2b "user." ++ fs.flags.SymlinkAttr
  then
    match Inode.fillXattr fs inode head with
    | (inode2, some e) => (inode2, Except.error e)
    | (inode2, none) =>
      match inode2.userMetadata with
      | none => (inode2, Except.error Errno.ENOSYS)
      | some _ => (inode2, Except.ok (MetaTarget.user, name.drop 5))
  else if userOnly then (inode, Except.error Errno.EPERM)
  else (inode, Except.error Errno.ENOSYS)

/-- The map a resolved `MetaTarget` addresses (the user target is only
produced after the nil check, so `getD []` is never exercised). -/
def Inode.metaOf (inode : Inode) (t : MetaTarget) : MetaMap :=
  match t with
  | MetaTarget.s3 => inode.s3Metadata
  | MetaTarget.user => inode.userMetadata.getD []

/-- Store into the map a resolved `MetaTarget` addresses. -/
def Inode.metaPut (inode : Inode) (t : MetaTarget) (k v : Bytes) : Inode :=
  match t with
  | MetaTarget.s3 => { inode with s3Metadata := mapStore inode.s3Metadata k v }
  | MetaTarget.user =>
    { inode with userMetadata := some (mapStore (inode.userMetadata.getD []) k v) }

/-- Delete from the map a resolved `MetaTarget` addresses. -/
def Inode.metaDel (inode : Inode) (t : MetaTarget) (k : Bytes) : Inode :=
  match t with
  | MetaTarget.s3 => { inode with s3Metadata := mapDrop inode.s3Metadata k }
  | MetaTarget.user =>
    { inode with userMetadata := some (mapDrop (inode.userMetadata.getD []) k) }

/-- `SetXattr` from the source. The cache-state write goes through the
dedicated setter; the returned Bool records the `WakeupFlusher()` call. -/
def Inode.SetXattr (fs : Goofys) (inode : Inode) (name : Bytes) (value : Bytes)
    (flags : Nat) (head : Except Errno HeadBlobOutput) : Inode × Option Errno × Bool :=
  match Inode.getXattrMap fs inode name true head with
  | (inode, Except.error e) => (inode, some e, false)
  | (inode, Except.ok (t, nm)) =>
    if flags ≠ 0 ∧ flags = XATTR_CREATE ∧ (mapLookup (inode.metaOf t) nm).isSome then
      (inode, some Errno.EEXIST, false)
    else if flags ≠ 0 ∧ flags = XATTR_REPLACE ∧ (mapLookup (inode.metaOf t) nm).isNone
    then
      (inode, some Errno.ENODATA, false)
    else
      let inode := inode.metaPut t nm (Dup value)
      let inode := { inode with userMetadataDirty := 2 }
      if inode.CacheState = ST_CACHED then
        ({ inode with CacheState := ST_MODIFIED }, none, true)
      else (inode, none, false)

/-- `RemoveXattr` from the source. -/
def Inode.RemoveXattr (fs : Goofys) (inode : Inode) (name : Bytes)
    (head : Except Errno HeadBlobOutput) : Inode × Option Errno × Bool :=
  match Inode.getXattrMap fs inode name true head with
  | (inode, Except.error e) => (inode, some e, false)
  | (inode, Except.ok (t, nm)) =>
    if (mapLookup (inode.metaOf t) nm).isSome then
      let inode := inode.metaDel t nm
      let inode := { inode with userMetadataDirty := 2 }
      if inode.CacheState = ST_CACHED then
        ({ inode with CacheState := ST_MODIFIED }, none, true)
      else (inode, none, false)
    else (inode, some Errno.ENODATA, false)

/-- `GetXattr` from the source. -/
def Inode.GetXattr (fs : Goofys) (inode : Inode) (name : Bytes)
    (head : Except Errno HeadBlobOutput) : Inode × Except Errno Bytes :=
  match Inode.getXattrMap fs inode name false head with
  | (inode, Except.error e) => (inode, Except.error e)
  | (inode, Except.ok (t, nm)) =>
    match mapLookup (inode.metaOf t) nm with
    | some v => (inode, Except.ok v)
    | none => (inode, Except.error Errno.ENODATA)

/-- `setFileMode` from the source. The Go code checks the directory bit
disagreement inside the `EnableSpecials` branch and returns early; here
the rejection is flattened into a leading test with the same guard. -/
def Inode.setFileMode (fs : Goofys) (inode : Inode) (newMode : Nat) :
    Except Errno (Inode × Bool) :=
  let prevMode := inode.Attributes.mode
  if fs.flags.EnableSpecials ∧ newMode &&& ModeDir ≠ inode.Attributes.mode &&& ModeDir
  then
    if newMode &&& ModeDir ≠ 0 then Except.error Errno.ENOTDIR
    else Except.error Errno.EISDIR
  else
    let inode :=
      if fs.flags.EnableSpecials then
        { inode with Attributes :=
          { inode.Attributes with
            mode := inode.Attributes.mode &&& ModePerm ||| (newMode &&& ModeType) } }
      else inode
    let inode :=
      if fs.flags.EnablePerms then
        { inode with Attributes :=
          { inode.Attributes with
            mode := inode.Attributes.mode &&& ModeType ||| (newMode &&& ModePerm) } }
      else inode
    let defaultMode := if inode.dir then fs.flags.DirMode ||| ModeDir else fs.flags.FileMode
    let inode :=
      if inode.Attributes.mode &&& ModeDevice ≠ 0 then
        inode.setUserMeta fs.flags.RdevAttr (some (natDecimal inode.Attributes.rdev))
      else inode
    let inode :=
      if inode.Attributes.mode ≠ defaultMode then
        inode.setUserMeta fs.flags.FileModeAttr
          (some (natDecimal (ConvertGolangMode inode.Attributes.mode)))
      else inode.setUserMeta fs.flags.FileModeAttr none
    Except.ok (inode, decide (prevMode ≠ inode.Attributes.mode))

/-! ## Concrete sample states, used to evaluate the theorems -/

/-- Default flag set: plain file/dir modes, no mtime/perm/special decoding. -/
def flags0 : FlagStorage :=
  ⟨0, 0, 420, 493, false, false, false, str2b "mtime", str2b "uid", str2b "gid",
    str2b "rdev", str2b "mode", str2b "--symlink-target--"⟩

/-- A filesystem whose root has mtime 111 and ctime 222, one tracked inode 7,
backend name "s3". -/
def fs0 : Goofys :=
  ⟨flags0, ⟨4096, 111, 222, 0, 0, 0, 0⟩, [7], 0, [7], str2b "s3"⟩

/-- A cached file inode with id 7, size 5, zero mtime, known ETag "A". -/
def inode0 : Inode :=
  ⟨7, str2b "f", ⟨5, 0, 50, 0, 0, 0, 420⟩, 100, false, false, ST_CACHED, [], false,
    0, some [], [(str2b "etag", str2b "A")], 5, str2b "A", 1⟩

/-- `inode0` with local modifications pending (cache state MODIFIED). -/
def inode1 : Inode := { inode0 with CacheState := ST_MODIFIED }

/-- `inode0` with one user-metadata entry `foo`. -/
def inode2 : Inode := { inode0 with userMetadata := some [(str2b "foo", [9])] }

/-- `fs0` with "enable specials" and "enable perms" turned on. -/
def fsS : Goofys :=
  { fs0 with flags := { flags0 with EnableSpecials := true, EnablePerms := true } }

/-- The result of `setFileMode` on `fsS`/`inode0` with mode 0755: mode
replaced, filemode key written as decimal 33261 (0100755). -/
def setFileModeRes : Inode × Bool :=
  ({ inode0 with
       Attributes := { inode0.Attributes with mode := 493 }
       userMetadata := some [(str2b "mode", str2b "33261")]
       userMetadataDirty := 2 }, true)

/-- An observed blob item carrying no ETag, same size as `inode0`'s known
size (no conflict), last-modified 200. -/
def itemNC : BlobItemOutput := ⟨str2b "f", none, some 200, 5, none, none⟩

/-- An observed blob item carrying ETag "B" and size 20 (a conflict against
`inode0`), storage class STANDARD. -/
def itemE : BlobItemOutput :=
  ⟨str2b "f", some (str2b "B"), some 200, 20, some (str2b "STANDARD"), none⟩

theorem hexVal_hexDigitU (n : Nat) (h : n < 16) : hexVal (hexDigitU n) = some n := by
  interval_cases n <;> decide

theorem hexVal_lower_hexDigitU (n : Nat) (h : n < 16) :
    hexVal (lowerByte (hexDigitU n)) = some n := by
  interval_cases n <;> decide

theorem lowerByte_ne37 (c : Nat) (h : c ≠ 37) : lowerByte c ≠ 37 := by
  unfold lowerByte; split <;> omega

theorem lowerByte_idem (c : Nat) : lowerByte (lowerByte c) = lowerByte c := by
  unfold lowerByte
  split
  · split <;> omega
  · rfl

theorem lowerBytes_idem (s : Bytes) : lowerBytes (lowerBytes s) = lowerBytes s := by
  unfold lowerBytes
  rw [List.map_map]
  exact List.map_congr_left (fun c _ => lowerByte_idem c)

theorem plainByte_ne37 (c : Nat) (h : plainByte c = true) : c ≠ 37 := by
  simp [plainByte] at h; omega

theorem plainByte_lowerByte (c : Nat) (h : plainByte c = true) :
    plainByte (lowerByte c) = true := by
  simp [plainByte] at h ⊢
  unfold lowerByte; split <;> omega

theorem pathUnescape_cons_ne (c : Nat) (l : Bytes) (h : c ≠ 37) :
    pathUnescape (c :: l) = (pathUnescape l).map (fun r => c :: r) := by
  rw [pathUnescape.eq_def]; simp [h]

theorem pathUnescape_cons_esc (a b ha hb : Nat) (l : Bytes)
    (hha : hexVal a = some ha) (hhb : hexVal b = some hb) :
    pathUnescape (37 :: a :: b :: l) =
      (pathUnescape l).map (fun r => (16 * ha + hb) :: r) := by
  rw [pathUnescape.eq_def]; simp [hha, hhb]

theorem pathUnescape_xattrEscape (v : Bytes) (h : ∀ c ∈ v, c < 256) :
    pathUnescape (xattrEscape v) = some v := by
  induction v with
  | nil => rfl
  | cons c rest ih =>
    have hc : c < 256 := h c (by simp)
    have hrest := ih (fun x hx => h x (by simp [hx]))
    by_cases hp : plainByte c
    · have hc37 : c ≠ 37 := plainByte_ne37 c hp
      simp only [xattrEscape, hp, if_true, List.cons_append, List.nil_append]
      rw [pathUnescape_cons_ne c _ hc37, hrest]
      rfl
    · simp only [xattrEscape, hp, Bool.false_eq_true, if_false, List.cons_append,
        List.nil_append]
      rw [pathUnescape_cons_esc _ _ (c / 16 % 16) (c % 16) _
        (hexVal_hexDigitU (c / 16 % 16) (by omega))
        (hexVal_hexDigitU (c % 16) (by omega)), hrest]
      have hcc : 16 * (c / 16 % 16) + c % 16 = c := by omega
      simp [hcc]

theorem pathUnescape_lowerEscape (k : Bytes) (h : ∀ c ∈ k, c < 256) :
    pathUnescape (lowerBytes (xattrEscape k)) = some (keyNorm k) := by
  induction k with
  | nil => rfl
  | cons c rest ih =>
    have hc : c < 256 := h c (by simp)
    have hrest := ih (fun x hx => h x (by simp [hx]))
    by_cases hp : plainByte c
    · have hc37 : lowerByte c ≠ 37 := lowerByte_ne37 c (plainByte_ne37 c hp)
      simp only [xattrEscape, hp, if_pos, List.cons_append, List.nil_append,
        lowerBytes, List.map_cons] at hrest ⊢
      rw [pathUnescape_cons_ne _ _ hc37, hrest]
      simp [keyNorm, hp]
    · have l37 : lowerByte 37 = 37 := by decide
      simp only [xattrEscape, hp, Bool.false_eq_true, if_false, List.cons_append,
        List.nil_append, lowerBytes, List.map_cons, l37] at hrest ⊢
      rw [pathUnescape_cons_esc _ _ (c / 16 % 16) (c % 16) _
        (hexVal_lower_hexDigitU (c / 16 % 16) (by omega))
        (hexVal_lower_hexDigitU (c % 16) (by omega)), hrest]
      have hcc : 16 * (c / 16 % 16) + c % 16 = c := by omega
      simp [hcc, keyNorm, hp]

theorem lowerEscape_keyNorm (k : Bytes) :
    lowerBytes (xattrEscape (keyNorm k)) = lowerBytes (xattrEscape k) := by
  induction k with
  | nil => rfl
  | cons c rest ih =>
    by_cases hp : plainByte c
    · simp only [keyNorm, List.map_cons, hp, if_pos, xattrEscape,
        plainByte_lowerByte c hp, List.cons_append, List.nil_append,
        lowerBytes, lowerByte_idem]
      exact congrArg _ (by simpa [keyNorm, lowerBytes] using ih)
    · simp only [keyNorm, List.map_cons, hp, Bool.false_eq_true, if_false, xattrEscape,
        List.cons_append, List.nil_append, lowerBytes, List.map_cons]
      exact congrArg _ (congrArg _ (congrArg _ (by simpa [keyNorm, lowerBytes] using ih)))

theorem unescapeMetadata_cons_ok (k v uk uv : Bytes) (m : MetaMap)
    (hk : pathUnescape (lowerBytes k) = some uk) (hv : pathUnescape v = some uv) :
    unescapeMetadata ((k, v) :: m) = (uk, uv) :: unescapeMetadata m := by
  simp only [unescapeMetadata, List.filterMap_cons, hk, hv]

theorem escape_unescape_id (m : MetaMap)
    (h : ∀ kv ∈ m,
      (∃ k0, (∀ c ∈ k0, c < 256) ∧ kv.1 = lowerBytes (xattrEscape k0)) ∧
      (∃ v0, (∀ c ∈ v0, c < 256) ∧ kv.2 = xattrEscape v0)) :
    escapeMetadata (unescapeMetadata m) = m := by
  induction m with
  | nil => rfl
  | cons kv m ih =>
    obtain ⟨⟨k0, hk0, hk⟩, ⟨v0, hv0, hv⟩⟩ := h kv (by simp)
    have hm := ih (fun x hx => h x (by simp [hx]))
    obtain ⟨k, v⟩ := kv
    simp only at hk hv
    subst hk hv
    rw [unescapeMetadata_cons_ok _ _ (keyNorm k0) v0 _
      (by rw [lowerBytes_idem]; exact pathUnescape_lowerEscape k0 hk0)
      (pathUnescape_xattrEscape v0 hv0)]
    show (lowerBytes (xattrEscape (keyNorm k0)), xattrEscape v0) ::
      escapeMetadata (unescapeMetadata m) = _
    rw [lowerEscape_keyNorm k0, hm]

/-- C9: for every metadata map whose keys are lowercase and whose keys and
values are valid URL-escape images (images of the escape codec),
`escapeMetadata (unescapeMetadata m) = m`; for every map with arbitrary
binary values, keys and values survive an escape/unescape/escape round trip;
and on unescape, entries whose key or value fails URL-unescaping are
silently dropped (every surviving entry arises from an entry whose key and
value both unescape successfully). -/
theorem c9_metadata_escape_roundtrip :
    (∀ m : MetaMap,
      (∀ kv ∈ m,
        (∃ k0, (∀ c ∈ k0, c < 256) ∧ kv.1 = lowerBytes (xattrEscape k0)) ∧
        (∃ v0, (∀ c ∈ v0, c < 256) ∧ kv.2 = xattrEscape v0)) →
      escapeMetadata (unescapeMetadata m) = m) ∧
    (∀ m : MetaMap,
      (∀ kv ∈ m, (∀ c ∈ kv.1, c < 256) ∧ (∀ c ∈ kv.2, c < 256)) →
      escapeMetadata (unescapeMetadata (escapeMetadata m)) = escapeMetadata m) ∧
    (∀ (m : MetaMap) (kv2 : Bytes × Bytes), kv2 ∈ unescapeMetadata m →
      ∃ kv ∈ m, pathUnescape (lowerBytes kv.1) = some kv2.1 ∧
        pathUnescape kv.2 = some kv2.2) := by
  refine ⟨escape_unescape_id, ?_, ?_⟩
  · intro m h
    apply escape_unescape_id
    intro kv hkv
    simp only [escapeMetadata, List.mem_map] at hkv
    obtain ⟨kv0, hkv0, hkv0eq⟩ := hkv
    obtain ⟨h1, h2⟩ := h kv0 hkv0
    subst hkv0eq
    exact ⟨⟨kv0.1, h1, rfl⟩, ⟨kv0.2, h2, rfl⟩⟩
  · intro m kv2 hmem
    simp only [unescapeMetadata, List.mem_filterMap] at hmem
    obtain ⟨kv, hkv, hf⟩ := hmem
    refine ⟨kv, hkv, ?_⟩
    cases hu : pathUnescape (lowerBytes kv.1) with
    | none => rw [hu] at hf; simp at hf
    | some uk =>
      cases hv : pathUnescape kv.2 with
      | none => rw [hu, hv] at hf; simp at hf
      | some uv =>
        rw [hu, hv] at hf
        simp only [Option.some.injEq] at hf
        subst hf
        exact ⟨rfl, rfl⟩

/-- Witness for C9: the three parts of the round-trip theorem applied to
concrete one- and two-entry metadata maps. -/
theorem c9_metadata_escape_roundtrip_check :
    escapeMetadata (unescapeMetadata [([97], [37, 48, 48])]) = [([97], [37, 48, 48])] ∧
    escapeMetadata (unescapeMetadata (escapeMetadata [([65], [255])])) =
      escapeMetadata [([65], [255])] ∧
    (∃ kv ∈ [([97], [98]), ([37], [99])],
      pathUnescape (lowerBytes kv.1) = some [97] ∧ pathUnescape kv.2 = some [98]) := by
  refine ⟨?_, ?_, ?_⟩
  · refine c9_metadata_escape_roundtrip.1 [([97], [37, 48, 48])] ?_
    intro kv hkv
    simp only [List.mem_singleton] at hkv
    subst hkv
    exact ⟨⟨[97], by decide, by decide⟩, ⟨[0], by decide, by decide⟩⟩
  · refine c9_metadata_escape_roundtrip.2.1 [([65], [255])] ?_
    intro kv hkv
    simp only [List.mem_singleton] at hkv
    subst hkv
    exact ⟨by decide, by decide⟩
  · exact c9_metadata_escape_roundtrip.2.2 [([97], [98]), ([37], [99])] ([97], [98])
      (by decide)

/-! ## Frame lemmas -/

theorem setMetadataAttrs_size (fs : Goofys) (um : MetaMap) (a : InodeAttributes) :
    (setMetadataAttrs fs um a).size = a.size := by
  unfold setMetadataAttrs
  dsimp only
  repeat' split
  all_goals rfl

theorem setMetadataAttrs_ctime (fs : Goofys) (um : MetaMap) (a : InodeAttributes) :
    (setMetadataAttrs fs um a).ctime = a.ctime := by
  unfold setMetadataAttrs
  dsimp only
  repeat' split
  all_goals rfl

/-- When mtime decoding is disabled or the mtime attribute is absent or
undecodable, `setMetadataAttrs` leaves the mtime unchanged. -/
theorem setMetadataAttrs_mtime_of_no_override (fs : Goofys) (um : MetaMap)
    (a : InodeAttributes)
    (h : fs.flags.EnableMtime = false ∨ mapLookup um fs.flags.MtimeAttr = none) :
    (setMetadataAttrs fs um a).mtime = a.mtime := by
  unfold setMetadataAttrs
  dsimp only
  repeat' split
  all_goals simp_all

theorem setMetadata_frame (fs : Goofys) (i : Inode) (md : MetaMap) :
    (Inode.setMetadata fs i md).knownETag = i.knownETag ∧
    (Inode.setMetadata fs i md).knownSize = i.knownSize ∧
    (Inode.setMetadata fs i md).AttrTime = i.AttrTime ∧
    (Inode.setMetadata fs i md).CacheState = i.CacheState ∧
    (Inode.setMetadata fs i md).s3Metadata = i.s3Metadata ∧
    (Inode.setMetadata fs i md).userMetadata = some (unescapeMetadata md) ∧
    (Inode.setMetadata fs i md).userMetadataDirty = i.userMetadataDirty ∧
    (Inode.setMetadata fs i md).Attributes.size = i.Attributes.size ∧
    (Inode.setMetadata fs i md).Attributes.ctime = i.Attributes.ctime := by
  refine ⟨rfl, rfl, rfl, rfl, rfl, rfl, rfl, ?_, ?_⟩
  · exact setMetadataAttrs_size fs (unescapeMetadata md) i.Attributes
  · exact setMetadataAttrs_ctime fs (unescapeMetadata md) i.Attributes

theorem mapLookup_mapStore (m : MetaMap) (k v k' : Bytes) :
    mapLookup (mapStore m k v) k' = if k = k' then some v else mapLookup m k' := by
  induction m with
  | nil => by_cases h : k = k' <;> simp [mapStore, mapLookup, h]
  | cons kv rest ih =>
    obtain ⟨k1, v1⟩ := kv
    by_cases h1 : k1 = k
    · subst h1
      by_cases h2 : k1 = k' <;> simp [mapStore, mapLookup, h2]
    · by_cases h2 : k1 = k'
      · subst h2
        have hk : ¬(k = k1) := fun h => h1 h.symm
        simp [mapStore, mapLookup, h1, hk]
      · simp [mapStore, mapLookup, h1, h2, ih]

theorem mapDrop_cons (k1 v1 k : Bytes) (rest : MetaMap) :
    mapDrop ((k1, v1) :: rest) k =
      if k1 = k then mapDrop rest k else (k1, v1) :: mapDrop rest k := by
  simp only [mapDrop, List.filter_cons]
  by_cases h : k1 = k <;> simp [h]

theorem mapLookup_mapDrop (m : MetaMap) (k k' : Bytes) :
    mapLookup (mapDrop m k) k' = if k' = k then none else mapLookup m k' := by
  induction m with
  | nil => by_cases h : k' = k <;> simp [mapDrop, mapLookup, h]
  | cons kv rest ih =>
    obtain ⟨k1, v1⟩ := kv
    rw [mapDrop_cons]
    by_cases h1 : k1 = k
    · subst h1
      rw [if_pos rfl, ih]
      by_cases h2 : k' = k1
      · simp [h2]
      · have : ¬(k1 = k') := fun h => h2 h.symm
        simp [mapLookup, h2, this]
    · rw [if_neg h1]
      simp only [mapLookup]
      by_cases h2 : k1 = k' <;> by_cases h3 : k' = k <;> simp_all

theorem mapLookup_store_sc_etag (m : MetaMap) (v : Bytes) :
    mapLookup (mapStore m (str2b "storage-class") v) (str2b "etag") =
      mapLookup m (str2b "etag") := by
  rw [mapLookup_mapStore]
  simp [str2b]

theorem mapLookup_drop_sc_etag (m : MetaMap) :
    mapLookup (mapDrop m (str2b "storage-class")) (str2b "etag") =
      mapLookup m (str2b "etag") := by
  rw [mapLookup_mapDrop]
  simp [str2b]

theorem mapLookup_store_etag_self (m : MetaMap) (v : Bytes) :
    mapLookup (mapStore m (str2b "etag") v) (str2b "etag") = some v := by
  rw [mapLookup_mapStore]; simp

theorem mapLookup_drop_etag_self (m : MetaMap) :
    mapLookup (mapDrop m (str2b "etag")) (str2b "etag") = none := by
  rw [mapLookup_mapDrop]; simp

/-! ## C3: InflateAttributes -/

/-- C3 (counterexample): the claim says a zero internal Mtime is replaced
by the filesystem root's **ctime**; on `inode0` (zero mtime) with a root
whose mtime is 111 and ctime is 222, the code produces 111, not 222. -/
theorem c3_zero_mtime_counterexample :
    inode0.Attributes.mtime = 0 ∧ fs0.rootAttrs.ctime = 222 ∧
    (Inode.InflateAttributes fs0 inode0).Mtime ≠ fs0.rootAttrs.ctime := by
  decide

/-- C3 (amended): `InflateAttributes` aliases Atime to the internal ctime
and Crtime to the presented mtime, sets Nlink to 2 for directories and 1
otherwise, and replaces a zero internal Mtime with the filesystem root's
**mtime** (not its ctime). -/
theorem c3_inflate_attributes (fs : Goofys) (inode : Inode) :
    (Inode.InflateAttributes fs inode).Atime = inode.Attributes.ctime ∧
    (Inode.InflateAttributes fs inode).Crtime = (Inode.InflateAttributes fs inode).Mtime ∧
    (inode.Attributes.mtime = 0 →
      (Inode.InflateAttributes fs inode).Mtime = fs.rootAttrs.mtime) ∧
    (inode.Attributes.mtime ≠ 0 →
      (Inode.InflateAttributes fs inode).Mtime = inode.Attributes.mtime) ∧
    (Inode.InflateAttributes fs inode).Nlink = (if inode.dir then 2 else 1) := by
  unfold Inode.InflateAttributes
  by_cases hd : inode.dir = true
  · by_cases hm : inode.Attributes.mtime = 0 <;> simp [hd, hm]
  · by_cases hm : inode.Attributes.mtime = 0 <;>
      simp only [hd, hm, Bool.false_eq_true, if_false, if_true] <;>
      split <;> simp [hd, hm]

/-- Witness for C3: on `inode0` (zero mtime) the presented mtime is the
root's mtime. -/
theorem c3_inflate_attributes_check :
    (Inode.InflateAttributes fs0 inode0).Mtime = fs0.rootAttrs.mtime :=
  (c3_inflate_attributes fs0 inode0).2.2.1 (by decide)

/-! ## C4: DeRef -/

/-- C4: `DeRef(n)` aborts (models: returns `none`) when the resulting
refcount would be negative; at zero with state CACHED it resets the cache,
removes the inode from the fs table, increments the forget counter and
forgets the inode in the LFRU tracker; at zero with any other state the
fs state (in particular the inode table) is untouched. -/
theorem c4_deref (fs : Goofys) (inode : Inode) (n : Int) :
    (inode.refcnt - n < 0 → Inode.DeRef fs inode n = none) ∧
    (inode.refcnt - n = 0 ∧ inode.CacheState = ST_CACHED →
      Inode.DeRef fs inode n =
        some ({ fs with
                  inodes := fs.inodes.filter (fun i => i ≠ inode.Id)
                  forgotCnt := fs.forgotCnt + 1
                  lfru := fs.lfru.filter (fun i => i ≠ inode.Id) },
              Inode.resetCache { inode with refcnt := 0 }, true)) ∧
    (inode.refcnt - n = 0 ∧ inode.CacheState ≠ ST_CACHED →
      Inode.DeRef fs inode n = some (fs, { inode with refcnt := 0 }, true)) := by
  unfold Inode.DeRef
  refine ⟨?_, ?_, ?_⟩
  · intro h; simp [h]
  · rintro ⟨h0, hc⟩
    rw [h0]
    simp [hc, Inode.resetCache]
  · rintro ⟨h0, hc⟩
    rw [h0]
    simp [hc]

/-- Witness for C4: over-deref of `inode0` aborts; deref to zero of the
CACHED `inode0` removes inode 7 from the table, bumps the forget counter
and clears the LFRU entry; deref to zero of the MODIFIED `inode1` leaves
the fs state unchanged. -/
theorem c4_deref_check :
    Inode.DeRef fs0 inode0 2 = none ∧
    Inode.DeRef fs0 inode0 1 =
      some ({ fs0 with inodes := [], forgotCnt := 1, lfru := [] },
            Inode.resetCache { inode0 with refcnt := 0 }, true) ∧
    Inode.DeRef fs0 inode1 1 = some (fs0, { inode1 with refcnt := 0 }, true) := by
  refine ⟨(c4_deref fs0 inode0 2).1 (by decide), ?_,
    (c4_deref fs0 inode1 1).2.2 (by decide)⟩
  exact ((c4_deref fs0 inode0 1).2.1 (by decide)).trans (by decide)

/-! ## C1, C2, C10: SetFromBlobItem -/

/-- C1: `SetFromBlobItem` resets the local cache — `resetCache` followed by
`ResizeUnlocked` to the observed size — exactly when the item carries an
ETag differing from `knownETag` or the observed size differs from
`knownSize` (the `(a && b) || c` reading of the source condition); and the
warning is emitted, before the reset, exactly when additionally the cache
state was not CACHED and a prior known state existed (non-empty `knownETag`
or positive `knownSize`). -/
theorem c1_conflict_rule (fs : Goofys) (inode : Inode) (item : BlobItemOutput)
    (now : Int) :
    (Inode.SetFromBlobItem fs inode item now).2 =
      (if (inode.CacheState ≠ ST_CACHED ∧ (inode.knownETag ≠ [] ∨ 0 < inode.knownSize)) ∧
          ((item.eTag ≠ none ∧ item.eTag ≠ some inode.knownETag) ∨
            item.size ≠ inode.knownSize)
        then [Event.warn] else []) ++
      (if (item.eTag ≠ none ∧ item.eTag ≠ some inode.knownETag) ∨
          item.size ≠ inode.knownSize
        then [Event.reset, Event.resize item.size] else []) := by
  unfold Inode.SetFromBlobItem
  cases he : item.eTag with
  | none =>
    by_cases hs : item.size = inode.knownSize <;>
      by_cases hw : inode.CacheState ≠ ST_CACHED ∧
        (inode.knownETag ≠ [] ∨ 0 < inode.knownSize) <;>
      simp [he, hs, hw]
  | some e =>
    by_cases hee : inode.knownETag = e
    · subst hee
      by_cases hs : item.size = inode.knownSize <;>
        by_cases hw : inode.CacheState ≠ ST_CACHED ∧
          (inode.knownETag ≠ [] ∨ 0 < inode.knownSize) <;>
        simp [he, hs, hw]
    · have hee2 : ¬(e = inode.knownETag) := fun h => hee h.symm
      by_cases hs : item.size = inode.knownSize <;>
        by_cases hw : inode.CacheState ≠ ST_CACHED ∧
          (inode.knownETag ≠ [] ∨ 0 < inode.knownSize) <;>
        simp [he, hee, hee2, hs, hw]

/-- C10: after `SetFromBlobItem` with an item carrying no ETag, the "etag"
entry is deleted from `s3Metadata` while `knownETag` keeps its previous
value (so the two can disagree); with an ETag both are set to it. -/
theorem c10_etag_vs_known (fs : Goofys) (inode : Inode) (item : BlobItemOutput)
    (now : Int) :
    (item.eTag = none →
      mapLookup (Inode.SetFromBlobItem fs inode item now).1.s3Metadata (str2b "etag") =
        none ∧
      (Inode.SetFromBlobItem fs inode item now).1.knownETag = inode.knownETag) ∧
    (∀ e, item.eTag = some e →
      mapLookup (Inode.SetFromBlobItem fs inode item now).1.s3Metadata (str2b "etag") =
        some e ∧
      (Inode.SetFromBlobItem fs inode item now).1.knownETag = e) := by
  constructor
  · intro he
    unfold Inode.SetFromBlobItem
    by_cases hs : item.size = inode.knownSize <;>
      cases hlm : item.lastModified <;>
      cases hmd : item.metadata <;>
      cases hsc : item.storageClass <;>
      simp [he, hs, hlm, hmd, hsc, Inode.resetCache, Inode.ResizeUnlocked,
        Inode.setMetadata, mapLookup_drop_etag_self, mapLookup_store_sc_etag,
        mapLookup_drop_sc_etag, apply_ite]
  · intro e he
    unfold Inode.SetFromBlobItem
    by_cases hee : inode.knownETag = e
    · by_cases hs : item.size = inode.knownSize <;>
        cases hlm : item.lastModified <;>
        cases hmd : item.metadata <;>
        cases hsc : item.storageClass <;>
        simp [he, hee, hs, hlm, hmd, hsc, Inode.resetCache, Inode.ResizeUnlocked,
          Inode.setMetadata, mapLookup_store_etag_self, mapLookup_store_sc_etag,
          mapLookup_drop_sc_etag, apply_ite]
    · by_cases hs : item.size = inode.knownSize <;>
        cases hlm : item.lastModified <;>
        cases hmd : item.metadata <;>
        cases hsc : item.storageClass <;>
        simp [he, hee, hs, hlm, hmd, hsc, Inode.resetCache, Inode.ResizeUnlocked,
          Inode.setMetadata, mapLookup_store_etag_self, mapLookup_store_sc_etag,
          mapLookup_drop_sc_etag, apply_ite]

/-- Witness for C10: on `inode0` (knownETag "A"), an item without ETag
clears the "etag" entry while `knownETag` stays "A" (they disagree), and
an item with ETag "B" sets both to "B". -/
theorem c10_etag_vs_known_check :
    mapLookup (Inode.SetFromBlobItem fs0 inode0 itemNC 300).1.s3Metadata
      (str2b "etag") = none ∧
    (Inode.SetFromBlobItem fs0 inode0 itemNC 300).1.knownETag = str2b "A" ∧
    (Inode.SetFromBlobItem fs0 inode0 itemE 300).1.knownETag = str2b "B" := by
  have h1 := (c10_etag_vs_known fs0 inode0 itemNC 300).1 rfl
  have h2 := (c10_etag_vs_known fs0 inode0 itemE 300).2 (str2b "B") rfl
  exact ⟨h1.1, h1.2, h2.2⟩

/-- C2 (counterexample): the claim asserts the size/mtime/ctime updates
happen "whether or not a conflict was detected"; on `inode0` with `itemNC`
(no ETag, size equal to `knownSize`, last-modified 200) no conflict is
detected and Mtime is left at its old value 0, not set to 200. -/
theorem c2_no_conflict_counterexample :
    itemNC.lastModified = some 200 ∧
    itemNC.size = inode0.knownSize ∧ itemNC.eTag = none ∧
    (Inode.SetFromBlobItem fs0 inode0 itemNC 300).1.Attributes.mtime ≠ 200 := by
  decide

/-- C2 (amended): the stores of the observed size, of mtime/ctime from
last-modified (falling back to the root ctime), and the parse of present
metadata with `userMetadataDirty := 0`, happen exactly when a conflict is
detected (when metadata is present and the mtime attribute is enabled, the
decoded mtime may further override the stored one); without a conflict the
attributes and user metadata are unchanged; `AttrTime` advances to `now`
unless it was already in the future, in every case. -/
theorem c2_updates_on_conflict (fs : Goofys) (inode : Inode) (item : BlobItemOutput)
    (now : Int) :
    (((item.eTag ≠ none ∧ item.eTag ≠ some inode.knownETag) ∨
        item.size ≠ inode.knownSize) →
      (Inode.SetFromBlobItem fs inode item now).1.knownSize = item.size ∧
      (Inode.SetFromBlobItem fs inode item now).1.Attributes.size = item.size ∧
      (Inode.SetFromBlobItem fs inode item now).1.Attributes.ctime =
        (match item.lastModified with
         | some t => t
         | none => fs.rootAttrs.ctime) ∧
      (item.metadata = none →
        (Inode.SetFromBlobItem fs inode item now).1.Attributes.mtime =
          (match item.lastModified with
           | some t => t
           | none => fs.rootAttrs.ctime) ∧
        (Inode.SetFromBlobItem fs inode item now).1.userMetadata =
          inode.userMetadata ∧
        (Inode.SetFromBlobItem fs inode item now).1.userMetadataDirty =
          inode.userMetadataDirty) ∧
      (∀ md, item.metadata = some md →
        (Inode.SetFromBlobItem fs inode item now).1.userMetadata =
          some (unescapeMetadata md) ∧
        (Inode.SetFromBlobItem fs inode item now).1.userMetadataDirty = 0)) ∧
    (¬((item.eTag ≠ none ∧ item.eTag ≠ some inode.knownETag) ∨
        item.size ≠ inode.knownSize) →
      (Inode.SetFromBlobItem fs inode item now).1.Attributes = inode.Attributes ∧
      (Inode.SetFromBlobItem fs inode item now).1.userMetadata = inode.userMetadata ∧
      (Inode.SetFromBlobItem fs inode item now).1.userMetadataDirty =
        inode.userMetadataDirty ∧
      (Inode.SetFromBlobItem fs inode item now).1.knownSize = inode.knownSize) ∧
    (Inode.SetFromBlobItem fs inode item now).1.AttrTime =
      (if inode.AttrTime < now then now else inode.AttrTime) := by
  refine ⟨?_, ?_, ?_⟩
  · intro hc
    unfold Inode.SetFromBlobItem
    have hcb : ((match item.eTag with
        | some e => decide (inode.knownETag ≠ e)
        | none => false) || decide (item.size ≠ inode.knownSize)) = true := by
      rcases hc with ⟨hne, hne2⟩ | hs
      · cases he : item.eTag with
        | none => exact absurd he hne
        | some e =>
          rw [he] at hne2
          simp only [Bool.or_eq_true, decide_eq_true_eq]
          exact Or.inl (fun h => hne2 (by rw [h]))
      · simp [hs]
    rw [hcb]
    cases hlm : item.lastModified <;>
      cases hmd : item.metadata <;>
      cases hsc : item.storageClass <;>
      cases he2 : item.eTag <;>
      simp [hlm, hmd, hsc, he2, Inode.resetCache, Inode.ResizeUnlocked,
        Inode.setMetadata, setMetadataAttrs_size, setMetadataAttrs_ctime,
        apply_ite]
  · intro hc
    unfold Inode.SetFromBlobItem
    have he : item.eTag = none ∨ item.eTag = some inode.knownETag := by
      push_neg at hc
      cases he : item.eTag with
      | none => exact Or.inl rfl
      | some e =>
        refine Or.inr ?_
        have := hc.1 (by simp [he])
        rw [he] at this
        exact this
    have hs : item.size = inode.knownSize := by
      push_neg at hc
      exact hc.2
    have hcb : ((match item.eTag with
        | some e => decide (inode.knownETag ≠ e)
        | none => false) || decide (item.size ≠ inode.knownSize)) = false := by
      rcases he with he | he <;> simp [he, hs]
    rw [hcb]
    rcases he with he | he <;>
      cases hsc : item.storageClass <;>
      simp [he, hsc, apply_ite]
  · unfold Inode.SetFromBlobItem
    by_cases hcb : ((match item.eTag with
        | some e => decide (inode.knownETag ≠ e)
        | none => false) || decide (item.size ≠ inode.knownSize)) = true
    · rw [hcb]
      cases hlm : item.lastModified <;>
        cases hmd : item.metadata <;>
        cases hsc : item.storageClass <;>
        cases he2 : item.eTag <;>
        simp [hlm, hmd, hsc, he2, Inode.resetCache, Inode.ResizeUnlocked,
          Inode.setMetadata, apply_ite]
      all_goals split <;> omega
    · rw [Bool.not_eq_true] at hcb
      rw [hcb]
      cases hsc : item.storageClass <;>
        cases he2 : item.eTag <;>
        simp [hsc, he2, apply_ite]
      all_goals split <;> omega

/-- Witness for C2: the conflicting `itemE` (ETag "B", size 20) against
`inode0` stores size 20 and ctime 200 with the user metadata untouched,
while the non-conflicting `itemNC` leaves the attributes unchanged; in
both calls `AttrTime` advances to 300. -/
theorem c2_updates_on_conflict_check :
    (Inode.SetFromBlobItem fs0 inode0 itemE 300).1.knownSize = 20 ∧
    (Inode.SetFromBlobItem fs0 inode0 itemE 300).1.Attributes.ctime = 200 ∧
    (Inode.SetFromBlobItem fs0 inode0 itemNC 300).1.Attributes = inode0.Attributes ∧
    (Inode.SetFromBlobItem fs0 inode0 itemNC 300).1.AttrTime = 300 := by
  have h1 := (c2_updates_on_conflict fs0 inode0 itemE 300).1
    (Or.inl (by refine ⟨by simp [itemE], ?_⟩; simp [itemE, inode0, str2b]))
  have h2 := (c2_updates_on_conflict fs0 inode0 itemNC 300).2.1 (by decide)
  have h3 := (c2_updates_on_conflict fs0 inode0 itemNC 300).2.2
  refine ⟨h1.1, ?_, h2.1, ?_⟩
  · have := h1.2.2.1
    simpa [itemE] using this
  · rw [h3]
    decide

/-! ## C5, C6, C7: the xattr surface -/

theorem mapLookup_mapDrop_self (m : MetaMap) (k : Bytes) :
    mapLookup (mapDrop m k) k = none := by
  rw [mapLookup_mapDrop]; simp

theorem mapLookup_mapStore_self (m : MetaMap) (k v : Bytes) :
    mapLookup (mapStore m k v) k = some v := by
  rw [mapLookup_mapStore]; simp

/-- A user-namespace name (not the reserved symlink attribute, not in the
backend namespace) resolves to the user metadata map, with the `user.`
marker removed, when the user metadata is already known. -/
theorem getXattrMap_user (fs : Goofys) (inode : Inode) (name : Bytes)
    (userOnly : Bool) (head : Except Errno HeadBlobOutput) (um : MetaMap)
    (hb : (fs.backendName ++ [46]).isPrefixOf name = false)
    (hu : (str2b "user.").isPrefixOf name = true)
    (hs : name ≠ str2b "user." ++ fs.flags.SymlinkAttr)
    (hm : inode.userMetadata = some um) :
    Inode.getXattrMap fs inode name userOnly head =
      (inode, Except.ok (MetaTarget.user, name.drop 5)) := by
  unfold Inode.getXattrMap Inode.fillXattr
  simp [hb, hu, hs, hm]

/-- C7: backend-namespace names resolve to `s3Metadata` but are EPERM in
user-only mode; names outside both namespaces are EPERM in user-only mode
and ENOSYS otherwise; in particular `GetXattr("security.capability")` is
ENOSYS and `SetXattr("security.capability", v, 0)` is EPERM (for any
backend whose name does not make "security.capability" a backend key). -/
theorem c7_xattr_namespaces (fs : Goofys) (inode : Inode) (name : Bytes)
    (head : Except Errno HeadBlobOutput) :
    ((fs.backendName ++ [46]).isPrefixOf name = true →
      Inode.getXattrMap fs inode name true head = (inode, Except.error Errno.EPERM) ∧
      Inode.getXattrMap fs inode name false head =
        (inode,
          Except.ok (MetaTarget.s3, name.drop (fs.backendName ++ [46]).length))) ∧
    ((fs.backendName ++ [46]).isPrefixOf name = false →
      (str2b "user.").isPrefixOf name = false →
      Inode.getXattrMap fs inode name true head = (inode, Except.error Errno.EPERM) ∧
      Inode.getXattrMap fs inode name false head =
        (inode, Except.error Errno.ENOSYS)) ∧
    ((fs.backendName ++ [46]).isPrefixOf (str2b "security.capability") = false →
      ∀ v,
        (Inode.GetXattr fs inode (str2b "security.capability") head).2 =
          Except.error Errno.ENOSYS ∧
        (Inode.SetXattr fs inode (str2b "security.capability") v 0 head).2.1 =
          some Errno.EPERM) := by
  refine ⟨?_, ?_, ?_⟩
  · intro h
    constructor <;> (unfold Inode.getXattrMap; simp [h])
  · intro h1 h2
    constructor <;> (unfold Inode.getXattrMap; simp [h1, h2])
  · intro h v
    have hu : (str2b "user.").isPrefixOf (str2b "security.capability") = false := by
      decide
    constructor
    · unfold Inode.GetXattr Inode.getXattrMap
      simp [h, hu]
    · unfold Inode.SetXattr Inode.getXattrMap
      simp [h, hu]

/-- Witness for C7: with backend name "s3", the name "s3.etag" routes to
`s3Metadata` in non-user-only mode and is EPERM in user-only mode, and
"security.capability" gets ENOSYS from GetXattr and EPERM from SetXattr. -/
theorem c7_xattr_namespaces_check :
    Inode.getXattrMap fs0 inode0 (str2b "s3.etag") true (Except.error Errno.EIO) =
      (inode0, Except.error Errno.EPERM) ∧
    Inode.getXattrMap fs0 inode0 (str2b "s3.etag") false (Except.error Errno.EIO) =
      (inode0, Except.ok (MetaTarget.s3, str2b "etag")) ∧
    (Inode.GetXattr fs0 inode0 (str2b "security.capability")
      (Except.error Errno.EIO)).2 = Except.error Errno.ENOSYS ∧
    (Inode.SetXattr fs0 inode0 (str2b "security.capability") [1] 0
      (Except.error Errno.EIO)).2.1 = some Errno.EPERM := by
  have h1 := (c7_xattr_namespaces fs0 inode0 (str2b "s3.etag")
    (Except.error Errno.EIO)).1 (by decide)
  have h3 := (c7_xattr_namespaces fs0 inode0 (str2b "s3.etag")
    (Except.error Errno.EIO)).2.2 (by decide) [1]
  exact ⟨h1.1, h1.2.trans (by rfl), h3.1, h3.2⟩

/-- C5: `SetXattr` on a user-namespace key (with the user metadata known)
returns EEXIST under XATTR_CREATE when the key is present and ENODATA
under XATTR_REPLACE when it is absent, leaving the inode unchanged; on
success it stores a duplicate of the value, sets `userMetadataDirty = 2`,
and transitions CACHED to MODIFIED with a flusher wakeup (and no wakeup
otherwise). -/
theorem c5_setxattr (fs : Goofys) (inode : Inode) (name : Bytes) (value : Bytes)
    (flags : Nat) (head : Except Errno HeadBlobOutput) (um : MetaMap)
    (hb : (fs.backendName ++ [46]).isPrefixOf name = false)
    (hu : (str2b "user.").isPrefixOf name = true)
    (hs : name ≠ str2b "user." ++ fs.flags.SymlinkAttr)
    (hm : inode.userMetadata = some um) :
    (flags = XATTR_CREATE → (mapLookup um (name.drop 5)).isSome = true →
      Inode.SetXattr fs inode name value flags head =
        (inode, some Errno.EEXIST, false)) ∧
    (flags = XATTR_REPLACE → mapLookup um (name.drop 5) = none →
      Inode.SetXattr fs inode name value flags head =
        (inode, some Errno.ENODATA, false)) ∧
    (flags = 0 ∨ (flags = XATTR_CREATE ∧ mapLookup um (name.drop 5) = none) ∨
        (flags = XATTR_REPLACE ∧ (mapLookup um (name.drop 5)).isSome = true) →
      Inode.SetXattr fs inode name value flags head =
        ({ inode with
             userMetadata := some (mapStore um (name.drop 5) (Dup value))
             userMetadataDirty := 2
             CacheState := if inode.CacheState = ST_CACHED then ST_MODIFIED
                           else inode.CacheState },
         none, decide (inode.CacheState = ST_CACHED))) := by
  have hg := getXattrMap_user fs inode name true head um hb hu hs hm
  refine ⟨?_, ?_, ?_⟩
  · intro hf hl
    unfold Inode.SetXattr
    rw [hg]
    simp [hf, Inode.metaOf, hm, hl, XATTR_CREATE]
  · intro hf hl
    unfold Inode.SetXattr
    rw [hg]
    simp [hf, Inode.metaOf, hm, hl, XATTR_CREATE, XATTR_REPLACE]
  · intro hsucc
    unfold Inode.SetXattr
    rw [hg]
    rcases hsucc with h0 | ⟨h1, hl⟩ | ⟨h2, hl⟩
    · by_cases hcs : inode.CacheState = ST_CACHED <;>
        simp [h0, hcs, Inode.metaOf, Inode.metaPut, hm, Dup]
    · by_cases hcs : inode.CacheState = ST_CACHED <;>
        simp [h1, hl, hcs, Inode.metaOf, Inode.metaPut, hm, Dup,
          XATTR_CREATE, XATTR_REPLACE]
    · have hl2 : mapLookup um (name.drop 5) ≠ none :=
        Option.ne_none_iff_isSome.mpr hl
      by_cases hcs : inode.CacheState = ST_CACHED <;>
        simp [h2, hl, hl2, hcs, Inode.metaOf, Inode.metaPut, hm, Dup,
          XATTR_CREATE, XATTR_REPLACE]

/-- Witness for C5: storing `user.foo` on the CACHED `inode0` (empty user
metadata) succeeds, marks the metadata dirty, transitions to MODIFIED and
wakes the flusher; XATTR_REPLACE on the absent key returns ENODATA. -/
theorem c5_setxattr_check :
    Inode.SetXattr fs0 inode0 (str2b "user.foo") [1, 2] 0 (Except.error Errno.EIO) =
      ({ inode0 with
           userMetadata := some [(str2b "foo", [1, 2])]
           userMetadataDirty := 2
           CacheState := ST_MODIFIED }, none, true) ∧
    Inode.SetXattr fs0 inode0 (str2b "user.foo") [1, 2] 2 (Except.error Errno.EIO) =
      (inode0, some Errno.ENODATA, false) := by
  have h := c5_setxattr fs0 inode0 (str2b "user.foo") [1, 2] 0
    (Except.error Errno.EIO) [] (by decide) (by decide) (by decide) rfl
  have h2 := c5_setxattr fs0 inode0 (str2b "user.foo") [1, 2] 2
    (Except.error Errno.EIO) [] (by decide) (by decide) (by decide) rfl
  constructor
  · exact (h.2.2 (Or.inl rfl)).trans (by decide)
  · exact h2.2.1 rfl rfl

/-- C6: `RemoveXattr` on a user-namespace key (user metadata known)
returns ENODATA when the key is absent, leaving the inode — in particular
`userMetadataDirty` and the cache state — unchanged; on a present key it
deletes the entry, sets `userMetadataDirty = 2`, and transitions CACHED to
MODIFIED with a flusher wakeup (and no wakeup otherwise). -/
theorem c6_removexattr (fs : Goofys) (inode : Inode) (name : Bytes)
    (head : Except Errno HeadBlobOutput) (um : MetaMap)
    (hb : (fs.backendName ++ [46]).isPrefixOf name = false)
    (hu : (str2b "user.").isPrefixOf name = true)
    (hs : name ≠ str2b "user." ++ fs.flags.SymlinkAttr)
    (hm : inode.userMetadata = some um) :
    (mapLookup um (name.drop 5) = none →
      Inode.RemoveXattr fs inode name head = (inode, some Errno.ENODATA, false)) ∧
    ((mapLookup um (name.drop 5)).isSome = true →
      Inode.RemoveXattr fs inode name head =
        ({ inode with
             userMetadata := some (mapDrop um (name.drop 5))
             userMetadataDirty := 2
             CacheState := if inode.CacheState = ST_CACHED then ST_MODIFIED
                           else inode.CacheState },
         none, decide (inode.CacheState = ST_CACHED))) := by
  have hg := getXattrMap_user fs inode name true head um hb hu hs hm
  constructor
  · intro hl
    unfold Inode.RemoveXattr
    rw [hg]
    simp [Inode.metaOf, hm, hl]
  · intro hl
    unfold Inode.RemoveXattr
    rw [hg]
    by_cases hcs : inode.CacheState = ST_CACHED <;>
      simp [Inode.metaOf, Inode.metaDel, hm, hl, hcs]

/-- Witness for C6: removing the absent `user.foo` from `inode0` returns
ENODATA with the inode unchanged; removing the present `user.foo` from
`inode2` deletes it, marks the metadata dirty and wakes the flusher. -/
theorem c6_removexattr_check :
    Inode.RemoveXattr fs0 inode0 (str2b "user.foo") (Except.error Errno.EIO) =
      (inode0, some Errno.ENODATA, false) ∧
    Inode.RemoveXattr fs0 inode2 (str2b "user.foo") (Except.error Errno.EIO) =
      ({ inode2 with
           userMetadata := some []
           userMetadataDirty := 2
           CacheState := ST_MODIFIED }, none, true) := by
  have h1 := c6_removexattr fs0 inode0 (str2b "user.foo") (Except.error Errno.EIO)
    [] (by decide) (by decide) (by decide) rfl
  have h2 := c6_removexattr fs0 inode2 (str2b "user.foo") (Except.error Errno.EIO)
    [(str2b "foo", [9])] (by decide) (by decide) (by decide) rfl
  exact ⟨h1.1 rfl, (h2.2 rfl).trans (by decide)⟩

/-! ## C8: setFileMode -/

theorem land_lor_right (x y m : Nat) : (x ||| y) &&& m = x &&& m ||| (y &&& m) := by
  apply Nat.eq_of_testBit_eq
  intro i
  simp [Nat.testBit_land, Nat.testBit_lor, Bool.and_or_distrib_right]

theorem mask_proj_right (x y a b : Nat) (hab : a &&& b = 0) (hbb : b &&& b = b) :
    (x &&& a ||| y &&& b) &&& b = y &&& b := by
  rw [land_lor_right, Nat.land_assoc, Nat.land_assoc, hab, hbb, Nat.and_zero,
    Nat.zero_or]

theorem mask_proj_left (x y a b : Nat) (hba : b &&& a = 0) (haa : a &&& a = a) :
    (x &&& a ||| y &&& b) &&& a = x &&& a := by
  rw [land_lor_right, Nat.land_assoc, Nat.land_assoc, hba, haa, Nat.and_zero,
    Nat.or_zero]

theorem setUserMeta_Attributes (i : Inode) (k : Bytes) (v : Option Bytes) :
    (Inode.setUserMeta i k v).Attributes = i.Attributes := rfl

theorem setUserMeta_userMetadata_none (i : Inode) (k : Bytes) :
    (Inode.setUserMeta i k none).userMetadata =
      some (mapDrop (i.userMetadata.getD []) k) := rfl

theorem setUserMeta_userMetadata_some (i : Inode) (k x : Bytes) :
    (Inode.setUserMeta i k (some x)).userMetadata =
      some (mapStore (i.userMetadata.getD []) k x) := rfl

theorem ite_Attributes (c : Prop) [Decidable c] (a b : Inode) :
    (ite c a b).Attributes = ite c a.Attributes b.Attributes :=
  apply_ite Inode.Attributes c a b

theorem ite_userMetadata (c : Prop) [Decidable c] (a b : Inode) :
    (ite c a b).userMetadata = ite c a.userMetadata b.userMetadata :=
  apply_ite Inode.userMetadata c a b

theorem maskPT_perm (x y : Nat) :
    (x &&& ModePerm ||| y &&& ModeType) &&& ModePerm = x &&& ModePerm :=
  mask_proj_left x y ModePerm ModeType (by decide) (by decide)

theorem maskPT_type (x y : Nat) :
    (x &&& ModePerm ||| y &&& ModeType) &&& ModeType = y &&& ModeType :=
  mask_proj_right x y ModePerm ModeType (by decide) (by decide)

theorem maskTP_type (x y : Nat) :
    (x &&& ModeType ||| y &&& ModePerm) &&& ModeType = x &&& ModeType :=
  mask_proj_left x y ModeType ModePerm (by decide) (by decide)

theorem maskTP_perm (x y : Nat) :
    (x &&& ModeType ||| y &&& ModePerm) &&& ModePerm = y &&& ModePerm :=
  mask_proj_right x y ModeType ModePerm (by decide) (by decide)

/-- `Except.ok`-ness, as a Bool (for decidable statements about results). -/
def isOkE {ε α : Type} : Except ε α → Bool
  | Except.ok _ => true
  | Except.error _ => false

/-- C8 (counterexample): the claim says that with "enable specials" OFF a
type portion disagreeing with the existing type is rejected with
ENOTDIR/EISDIR; on `fs0` (specials off) and the regular file `inode0`,
`setFileMode` with a directory-typed mode succeeds instead of failing. -/
theorem c8_specials_off_counterexample :
    fs0.flags.EnableSpecials = false ∧
    (ModeDir ||| 493) &&& ModeDir ≠ inode0.Attributes.mode &&& ModeDir ∧
    isOkE (Inode.setFileMode fs0 inode0 (ModeDir ||| 493)) = true := by
  decide

/-- C8 (amended): the ENOTDIR/EISDIR rejection of a directory-bit
disagreement happens when "enable specials" is ON (ENOTDIR when the new
mode has the directory bit, EISDIR otherwise); with specials OFF no error
is ever returned and the type bits are ignored. On success, permission
bits are replaced exactly when "enable perms" is on, type bits are taken
from the new mode exactly when "enable specials" is on, the filemode
user-metadata key is cleared when the resulting mode equals the default
mode for the inode kind and otherwise holds the decimal of the
backend-convention encoding of the resulting mode, and the changed flag is
true iff the mode value changed. -/
theorem c8_set_file_mode (fs : Goofys) (inode : Inode) (newMode : Nat) :
    (fs.flags.EnableSpecials = true →
      newMode &&& ModeDir ≠ inode.Attributes.mode &&& ModeDir →
      Inode.setFileMode fs inode newMode =
        Except.error (if newMode &&& ModeDir ≠ 0 then Errno.ENOTDIR else Errno.EISDIR)) ∧
    (fs.flags.EnableSpecials = false →
      ∀ e, Inode.setFileMode fs inode newMode ≠ Except.error e) ∧
    (∀ r, Inode.setFileMode fs inode newMode = Except.ok r →
      r.1.Attributes.mode &&& ModePerm =
        (if fs.flags.EnablePerms then newMode else inode.Attributes.mode) &&& ModePerm ∧
      r.1.Attributes.mode &&& ModeType =
        (if fs.flags.EnableSpecials then newMode else inode.Attributes.mode) &&& ModeType ∧
      (r.1.Attributes.mode =
          (if inode.dir then fs.flags.DirMode ||| ModeDir else fs.flags.FileMode) →
        mapLookup (r.1.userMetadata.getD []) fs.flags.FileModeAttr = none) ∧
      (r.1.Attributes.mode ≠
          (if inode.dir then fs.flags.DirMode ||| ModeDir else fs.flags.FileMode) →
        mapLookup (r.1.userMetadata.getD []) fs.flags.FileModeAttr =
          some (natDecimal (ConvertGolangMode r.1.Attributes.mode))) ∧
      r.2 = decide (inode.Attributes.mode ≠ r.1.Attributes.mode)) := by
  refine ⟨?_, ?_, ?_⟩
  · intro hsp hdb
    unfold Inode.setFileMode
    rw [if_pos ⟨hsp, hdb⟩]
    by_cases hnd : newMode &&& ModeDir ≠ 0 <;> simp [hnd]
  · intro hsp e
    unfold Inode.setFileMode
    rw [if_neg (by simp [hsp])]
    simp
  · intro r hr
    unfold Inode.setFileMode at hr
    by_cases hc : fs.flags.EnableSpecials = true ∧
        newMode &&& ModeDir ≠ inode.Attributes.mode &&& ModeDir
    · rw [if_pos hc] at hr
      split at hr <;> simp at hr
    · rw [if_neg hc] at hr
      simp only [Except.ok.injEq] at hr
      subst hr
      refine ⟨?_, ?_, ?_, ?_, ?_⟩
      · by_cases hsp : fs.flags.EnableSpecials = true <;>
          by_cases hpm : fs.flags.EnablePerms = true <;>
          simp [hsp, hpm, Inode.setUserMeta, apply_ite, ite_self, maskPT_perm,
            maskTP_perm, maskPT_type, maskTP_type]
      · by_cases hsp : fs.flags.EnableSpecials = true <;>
          by_cases hpm : fs.flags.EnablePerms = true <;>
          simp [hsp, hpm, Inode.setUserMeta, apply_ite, ite_self, maskPT_perm,
            maskTP_perm, maskPT_type, maskTP_type]
      · intro hdef
        by_cases hsp : fs.flags.EnableSpecials = true <;>
          by_cases hpm : fs.flags.EnablePerms = true <;>
          simp only [hsp, hpm, Bool.false_eq_true, if_true, if_false,
            setUserMeta_Attributes, ite_Attributes, ite_self] at hdef ⊢ <;>
          simp [hdef, setUserMeta_Attributes, setUserMeta_userMetadata_none,
            ite_Attributes, ite_userMetadata, ite_self, mapLookup_mapDrop_self]
      · intro hdef
        by_cases hsp : fs.flags.EnableSpecials = true <;>
          by_cases hpm : fs.flags.EnablePerms = true <;>
          simp only [hsp, hpm, Bool.false_eq_true, if_true, if_false,
            setUserMeta_Attributes, ite_Attributes, ite_self] at hdef ⊢ <;>
          simp [hdef, setUserMeta_Attributes, setUserMeta_userMetadata_some,
            ite_Attributes, ite_userMetadata, ite_self, mapLookup_mapStore_self]
      · by_cases hsp : fs.flags.EnableSpecials = true <;>
          by_cases hpm : fs.flags.EnablePerms = true <;>
          simp [hsp, hpm, setUserMeta_Attributes, ite_Attributes, ite_self]

/-- Witness for C8: on `fsS` (specials and perms on) and the regular file
`inode0`, a directory-typed mode is rejected with ENOTDIR, and setting
mode 0755 succeeds with the perm bits replaced and the filemode key
written. -/
theorem c8_set_file_mode_check :
    Inode.setFileMode fsS inode0 (ModeDir ||| 493) = Except.error Errno.ENOTDIR ∧
    (∀ e, Inode.setFileMode fs0 inode0 (ModeDir ||| 493) ≠ Except.error e) ∧
    setFileModeRes.1.Attributes.mode &&& ModePerm = 493 &&& ModePerm := by
  refine ⟨?_, ?_, ?_⟩
  · have h := (c8_set_file_mode fsS inode0 (ModeDir ||| 493)).1 (by decide) (by decide)
    rw [h, if_pos (show (ModeDir ||| 493) &&& ModeDir ≠ 0 by decide)]
  · exact (c8_set_file_mode fs0 inode0 (ModeDir ||| 493)).2.1 (by decide)
  · have h := ((c8_set_file_mode fsS inode0 493).2.2 setFileModeRes (by rfl)).1
    rw [h]
    decide

end GeeseFS
